import Mathlib

/-!
Shallow embedding of the `ripset` CLI front-end (`src/bin/ripset.rs`) and of
the spec-level behaviour of the backend library it drives.

The CLI handlers are embedded as pure Lean functions.  Calls into the backend
library (`ipset_*` / `nftset_*` functions, which live outside the sources under
verification) are modelled by a `BackendEnv` record of oracles supplying each
backend function's result, and every handler additionally returns the ordered
list of backend calls it performed (`BackendCall`), so that claims about which
backend operations run, with which arguments and in which order, become
statements about that trace.  Library errors reach the CLI as strings (the
handlers apply `.to_string()` to every library error), so oracle results are
`Except String _` directly.
-/

deriving instance DecidableEq for Except

namespace Ripset

/-- Rust `IpAddr`: a v4 address (4 bytes) or a v6 address (16 bytes). -/
inductive IpAddr
  | v4 (a : Fin (2 ^ 32))
  | v6 (a : Fin (2 ^ 128))
deriving DecidableEq, Repr

/-- Rust enum `Backend` from the CLI. -/
inductive Backend
  | Ipset
  | Nftables
deriving DecidableEq, Repr

/-- Library enum `IpSetFamily` (re-exported by the CLI): the spec's SetFamily. -/
inductive IpSetFamily
  | Inet
  | Inet6
deriving DecidableEq, Repr

/-- Library enum `IpSetType`. -/
inductive IpSetType
  | HashIp
  | HashNet
deriving DecidableEq, Repr

/-- Library enum `NftSetType`. -/
inductive NftSetType
  | Ipv4Addr
  | Ipv6Addr
deriving DecidableEq, Repr

/-- Modelled from the spec: `IpSetCreateOptions` (the library crate is not part
of the sources under verification; the CLI sets `set_type` and `family` and
leaves the rest at `Default::default()`, and the tests also use a `timeout`
field defaulting to absent). -/
structure IpSetCreateOptions where
  set_type : IpSetType := .HashIp
  family : IpSetFamily := .Inet
  timeout : Option Nat := none
deriving DecidableEq, Repr

/-- Modelled from the spec: `NftSetCreateOptions` (the library crate is not part
of the sources under verification; the CLI sets `set_type` and leaves the rest
at `Default::default()`, and the tests also use a `timeout` field defaulting to
absent). -/
structure NftSetCreateOptions where
  set_type : NftSetType := .Ipv4Addr
  timeout : Option Nat := none
deriving DecidableEq, Repr

/-- Splits a character list at its first `'.'`: `none` when no dot occurs,
otherwise `some (before, after)`.  This is Rust's `name.find('.')` followed by
the two slices `&name[..dot_pos]` and `&name[dot_pos + 1..]` (slicing at the
char boundary of the first `'.'` is exactly a char-wise split). -/
def splitAtFirstDot : List Char → Option (List Char × List Char)
  | [] => none
  | c :: cs =>
    if c = '.' then some ([], cs)
    else
      match splitAtFirstDot cs with
      | none => none
      | some (t, s) => some (c :: t, s)

/-- `parse_table_set_name` from `src/bin/ripset.rs`: parse a set name that may
carry a `<table>.<set>` qualifier.  Returns `(table_name, set_name)` where
`table_name` is `some` iff a dot separator was found with non-empty text on
both sides. -/
def parse_table_set_name (name : String) : Option String × String :=
  match splitAtFirstDot name.data with
  | some (t, s) =>
    if t ≠ [] ∧ s ≠ [] then (some (String.mk t), String.mk s) else (none, name)
  | none => (none, name)

/-- `resolve_table` from `src/bin/ripset.rs`: the explicit `--table` flag takes
precedence over the table parsed out of the `<table>.<set>` syntax. -/
def resolve_table (parsed_table explicit_table : Option String) : Option String :=
  explicit_table.or parsed_table

/-- Rust `str::to_lowercase` as used on the family / type tokens.  The
embedding lowercases ASCII letters character-wise; the full Unicode mapping
differs only on non-ASCII characters, none of which can lowercase to the ASCII
token strings these parsers match against. -/
def rustToLowercase (s : String) : String :=
  String.mk (s.data.map Char.toLower)

/-- `parse_ipset_type` from `src/bin/ripset.rs`. -/
def parse_ipset_type (type_str : String) : Except String IpSetType :=
  match rustToLowercase type_str with
  | "hash-ip" | "hash:ip" | "haship" => .ok .HashIp
  | "hash-net" | "hash:net" | "hashnet" => .ok .HashNet
  | _ => .error ("Unknown ipset type: " ++ type_str ++ ". Valid types: hash-ip, hash-net")

/-- `parse_ipset_family` from `src/bin/ripset.rs`. -/
def parse_ipset_family (family_str : String) : Except String IpSetFamily :=
  match rustToLowercase family_str with
  | "inet" | "ip" | "ipv4" => .ok .Inet
  | "inet6" | "ip6" | "ipv6" => .ok .Inet6
  | _ => .error ("Unknown family: " ++ family_str ++ ". Valid families: inet, inet6")

/-- `parse_nftset_type` from `src/bin/ripset.rs`: infer the nftables set type
from the type string, falling back to inference from the family string. -/
def parse_nftset_type (type_str family : String) : Except String NftSetType :=
  match rustToLowercase type_str with
  | "ipv4" | "ipv4_addr" | "hash-ip" | "hash:ip" => .ok .Ipv4Addr
  | "ipv6" | "ipv6_addr" => .ok .Ipv6Addr
  | _ =>
    match rustToLowercase family with
    | "ip6" | "ipv6" => .ok .Ipv6Addr
    | _ => .ok .Ipv4Addr

/-- One invocation of a backend library function, with the exact arguments the
CLI handler passed to it. -/
inductive BackendCall
  | ipsetAdd (set : String) (entry : IpAddr)
  | ipsetDel (set : String) (entry : IpAddr)
  | ipsetList (set : String)
  | ipsetFlush (set : String)
  | ipsetCreate (set : String) (options : IpSetCreateOptions)
  | ipsetDestroy (set : String)
  | ipsetRename (set_from set_to : String)
  | ipsetSwap (set_from set_to : String)
  | nftsetAdd (family table set : String) (entry : IpAddr)
  | nftsetDel (family table set : String) (entry : IpAddr)
  | nftsetList (family table set : String)
  | nftsetCreateSet (family table set : String) (options : NftSetCreateOptions)
  | nftsetDeleteSet (family table set : String)
  | nftsetCreateTable (family table : String)
  | nftsetDeleteTable (family table : String)
deriving DecidableEq, Repr

/-- Oracle for the backend library: the result each backend function returns
for given arguments (already rendered to `String` errors, as the handlers do
with `.map_err(|e| e.to_string())`). -/
structure BackendEnv where
  ipset_add : String → IpAddr → Except String Unit
  ipset_del : String → IpAddr → Except String Unit
  ipset_list : String → Except String (List IpAddr)
  ipset_flush : String → Except String Unit
  ipset_create : String → IpSetCreateOptions → Except String Unit
  ipset_destroy : String → Except String Unit
  ipset_rename : String → String → Except String Unit
  ipset_swap : String → String → Except String Unit
  nftset_add : String → String → String → IpAddr → Except String Unit
  nftset_del : String → String → String → IpAddr → Except String Unit
  nftset_list : String → String → String → Except String (List IpAddr)
  nftset_create_set : String → String → String → NftSetCreateOptions → Except String Unit
  nftset_delete_set : String → String → String → Except String Unit
  nftset_create_table : String → String → Except String Unit
  nftset_delete_table : String → String → Except String Unit

/-- The error returned by every set-scoped nftables handler when no table name
was resolved. -/
def tableRequiredMsg : String :=
  "Table name is required for nftables backend (use -t/--table or <table>.<set> syntax)"

/-- `handle_add` from `src/bin/ripset.rs`, returning the handler result paired
with the ordered trace of backend calls. -/
def handle_add (env : BackendEnv) (backend : Backend) (set_name : String)
    (entry : IpAddr) (table : Option String) (family : String) :
    Except String Unit × List BackendCall :=
  let parsed := parse_table_set_name set_name
  let actual_set_name := parsed.2
  let resolved_table := resolve_table parsed.1 table
  match backend with
  | .Ipset => (env.ipset_add actual_set_name entry, [.ipsetAdd actual_set_name entry])
  | .Nftables =>
    match resolved_table with
    | none => (.error tableRequiredMsg, [])
    | some tbl =>
      (env.nftset_add family tbl actual_set_name entry,
       [.nftsetAdd family tbl actual_set_name entry])

/-- `handle_del` from `src/bin/ripset.rs`. -/
def handle_del (env : BackendEnv) (backend : Backend) (set_name : String)
    (entry : IpAddr) (table : Option String) (family : String) :
    Except String Unit × List BackendCall :=
  let parsed := parse_table_set_name set_name
  let actual_set_name := parsed.2
  let resolved_table := resolve_table parsed.1 table
  match backend with
  | .Ipset => (env.ipset_del actual_set_name entry, [.ipsetDel actual_set_name entry])
  | .Nftables =>
    match resolved_table with
    | none => (.error tableRequiredMsg, [])
    | some tbl =>
      (env.nftset_del family tbl actual_set_name entry,
       [.nftsetDel family tbl actual_set_name entry])

/-- `handle_list` from `src/bin/ripset.rs` (the entries are printed to stdout;
the handler's value is `Result<(), String>`). -/
def handle_list (env : BackendEnv) (backend : Backend) (set_name : String)
    (table : Option String) (family : String) :
    Except String Unit × List BackendCall :=
  let parsed := parse_table_set_name set_name
  let actual_set_name := parsed.2
  let resolved_table := resolve_table parsed.1 table
  match backend with
  | .Ipset =>
    (Except.map (fun _ => ()) (env.ipset_list actual_set_name),
     [.ipsetList actual_set_name])
  | .Nftables =>
    match resolved_table with
    | none => (.error tableRequiredMsg, [])
    | some tbl =>
      (Except.map (fun _ => ()) (env.nftset_list family tbl actual_set_name),
       [.nftsetList family tbl actual_set_name])

/-- The `for entry in entries { nftset_del(...)?; }` loop inside the nftables
branch of `handle_flush`: delete each listed entry in order, propagating the
first error. -/
def nftFlushLoop (env : BackendEnv) (family table set : String) :
    List IpAddr → Except String Unit × List BackendCall
  | [] => (.ok (), [])
  | e :: es =>
    match env.nftset_del family table set e with
    | .error msg => (.error msg, [.nftsetDel family table set e])
    | .ok _ =>
      let rest := nftFlushLoop env family table set es
      (rest.1, .nftsetDel family table set e :: rest.2)

/-- `handle_flush` from `src/bin/ripset.rs`: native flush on ipset; on
nftables, list the set then delete each returned entry. -/
def handle_flush (env : BackendEnv) (backend : Backend) (set_name : String)
    (table : Option String) (family : String) :
    Except String Unit × List BackendCall :=
  let parsed := parse_table_set_name set_name
  let actual_set_name := parsed.2
  let resolved_table := resolve_table parsed.1 table
  match backend with
  | .Ipset => (env.ipset_flush actual_set_name, [.ipsetFlush actual_set_name])
  | .Nftables =>
    match resolved_table with
    | none => (.error tableRequiredMsg, [])
    | some tbl =>
      match env.nftset_list family tbl actual_set_name with
      | .error msg => (.error msg, [.nftsetList family tbl actual_set_name])
      | .ok entries =>
        let rest := nftFlushLoop env family tbl actual_set_name entries
        (rest.1, .nftsetList family tbl actual_set_name :: rest.2)

/-- `handle_rename` from `src/bin/ripset.rs`. -/
def handle_rename (env : BackendEnv) (backend : Backend)
    (set_name_from set_name_to : String) :
    Except String Unit × List BackendCall :=
  let actual_set_name_from := (parse_table_set_name set_name_from).2
  let actual_set_name_to := (parse_table_set_name set_name_to).2
  match backend with
  | .Ipset =>
    (env.ipset_rename actual_set_name_from actual_set_name_to,
     [.ipsetRename actual_set_name_from actual_set_name_to])
  | .Nftables => (.error "Unsupported operation in this backend", [])

/-- `handle_swap` from `src/bin/ripset.rs`. -/
def handle_swap (env : BackendEnv) (backend : Backend)
    (set_name_from set_name_to : String) :
    Except String Unit × List BackendCall :=
  let actual_set_name_from := (parse_table_set_name set_name_from).2
  let actual_set_name_to := (parse_table_set_name set_name_to).2
  match backend with
  | .Ipset =>
    (env.ipset_swap actual_set_name_from actual_set_name_to,
     [.ipsetSwap actual_set_name_from actual_set_name_to])
  | .Nftables => (.error "Unsupported operation in this backend", [])

/-- Rust enum `SetCommands` from the CLI (clap subcommands of `set`). -/
inductive SetCommands
  | New (set_name : String) (table : Option String) (family : String) (ty : String)
  | Del (set_name : String) (table : Option String) (family : String)
  | Rename (set_name_from set_name_to : String)
  | Swap (set_name_from set_name_to : String)
deriving DecidableEq, Repr

/-- Rust enum `TableCommands` from the CLI (clap subcommands of `table`). -/
inductive TableCommands
  | New (table_name : String) (family : String)
  | Del (table_name : String) (family : String)
deriving DecidableEq, Repr

/-- `handle_set_command` from `src/bin/ripset.rs`. -/
def handle_set_command (env : BackendEnv) (backend : Backend) (command : SetCommands) :
    Except String Unit × List BackendCall :=
  match command with
  | .New set_name table family ty =>
    let parsed := parse_table_set_name set_name
    let actual_set_name := parsed.2
    let resolved_table := resolve_table parsed.1 table
    match backend with
    | .Ipset =>
      match parse_ipset_type ty with
      | .error e => (.error e, [])
      | .ok set_type =>
        match parse_ipset_family family with
        | .error e => (.error e, [])
        | .ok ip_family =>
          let options : IpSetCreateOptions := { set_type := set_type, family := ip_family }
          (env.ipset_create actual_set_name options,
           [.ipsetCreate actual_set_name options])
    | .Nftables =>
      match resolved_table with
      | none => (.error tableRequiredMsg, [])
      | some tbl =>
        match parse_nftset_type ty family with
        | .error e => (.error e, [])
        | .ok nft_type =>
          let options : NftSetCreateOptions := { set_type := nft_type }
          (env.nftset_create_set family tbl actual_set_name options,
           [.nftsetCreateSet family tbl actual_set_name options])
  | .Del set_name table family =>
    let parsed := parse_table_set_name set_name
    let actual_set_name := parsed.2
    let resolved_table := resolve_table parsed.1 table
    match backend with
    | .Ipset => (env.ipset_destroy actual_set_name, [.ipsetDestroy actual_set_name])
    | .Nftables =>
      match resolved_table with
      | none => (.error tableRequiredMsg, [])
      | some tbl =>
        (env.nftset_delete_set family tbl actual_set_name,
         [.nftsetDeleteSet family tbl actual_set_name])
  | .Rename set_name_from set_name_to => handle_rename env backend set_name_from set_name_to
  | .Swap set_name_from set_name_to => handle_swap env backend set_name_from set_name_to

/-- `handle_table_command` from `src/bin/ripset.rs`. -/
def handle_table_command (env : BackendEnv) (backend : Backend) (command : TableCommands) :
    Except String Unit × List BackendCall :=
  match backend with
  | .Ipset => (.error "Table commands are only available for nftables backend", [])
  | .Nftables =>
    match command with
    | .New table_name family =>
      (env.nftset_create_table family table_name, [.nftsetCreateTable family table_name])
    | .Del table_name family =>
      (env.nftset_delete_table family table_name, [.nftsetDeleteTable family table_name])

/-- The address family (width) of an address: v4 addresses are `Inet`-width,
v6 addresses `Inet6`-width. -/
def addrFamily : IpAddr → IpSetFamily
  | .v4 _ => .Inet
  | .v6 _ => .Inet6

/-- Modelled from the spec: the kernel-resident state of one set — the backend
library's `create`/`add`/`del`/`test` functions are not part of the sources
under verification, so the set they manipulate is modelled from §3 of the
spec as a family fixed at creation plus the entries currently stored. -/
structure KernelSet where
  family : IpSetFamily
  entries : List IpAddr
deriving DecidableEq, Repr

/-- Modelled from the spec: `add(a)` on either backend — an entry whose
address width matches the set's configured family is stored; a mismatching
width is rejected with `FamilyMismatch` without mutating the set. -/
def spec_add (_backend : Backend) (s : KernelSet) (a : IpAddr) : Except String KernelSet :=
  if addrFamily a = s.family then
    .ok ⟨s.family, if a ∈ s.entries then s.entries else a :: s.entries⟩
  else .error "FamilyMismatch"

/-- Modelled from the spec: `del(a)` on either backend — removes the entry
when the width matches, rejects a mismatching width with `FamilyMismatch`. -/
def spec_del (_backend : Backend) (s : KernelSet) (a : IpAddr) : Except String KernelSet :=
  if addrFamily a = s.family then
    .ok ⟨s.family, s.entries.filter (fun e => e ≠ a)⟩
  else .error "FamilyMismatch"

/-- Modelled from the spec: `test(a)` on either backend — membership of the
entry in the set when the width matches. -/
def spec_test (_backend : Backend) (s : KernelSet) (a : IpAddr) : Except String Bool :=
  if addrFamily a = s.family then .ok (decide (a ∈ s.entries))
  else .error "FamilyMismatch"

/-- A concrete backend oracle used to instantiate the handler theorems: every
mutation succeeds and every list returns two fixed v4 entries. -/
def demoEnv : BackendEnv where
  ipset_add _ _ := .ok ()
  ipset_del _ _ := .ok ()
  ipset_list _ := .ok [.v4 1, .v4 2]
  ipset_flush _ := .ok ()
  ipset_create _ _ := .ok ()
  ipset_destroy _ := .ok ()
  ipset_rename _ _ := .ok ()
  ipset_swap _ _ := .ok ()
  nftset_add _ _ _ _ := .ok ()
  nftset_del _ _ _ _ := .ok ()
  nftset_list _ _ _ := .ok [.v4 1, .v4 2]
  nftset_create_set _ _ _ _ := .ok ()
  nftset_delete_set _ _ _ := .ok ()
  nftset_create_table _ _ := .ok ()
  nftset_delete_table _ _ := .ok ()

/-- Claim C2: for every pair of set names, `rename` and `swap` on the
nftables backend (whether reached through `handle_rename` / `handle_swap`
directly or through the `set` subcommand dispatcher) return the error
"Unsupported operation in this backend" and perform no backend call at all. -/
theorem c2_nftables_rename_swap_unsupported (env : BackendEnv)
    (set_name_from set_name_to : String) :
    handle_rename env .Nftables set_name_from set_name_to
      = (.error "Unsupported operation in this backend", []) ∧
    handle_swap env .Nftables set_name_from set_name_to
      = (.error "Unsupported operation in this backend", []) ∧
    handle_set_command env .Nftables (.Rename set_name_from set_name_to)
      = (.error "Unsupported operation in this backend", []) ∧
    handle_set_command env .Nftables (.Swap set_name_from set_name_to)
      = (.error "Unsupported operation in this backend", []) :=
  ⟨rfl, rfl, rfl, rfl⟩

/-- Claim C10: every table subcommand invoked with the ipset backend returns
the error "Table commands are only available for nftables backend" and calls
no backend function. -/
theorem c10_table_commands_ipset_rejected (env : BackendEnv) (command : TableCommands) :
    handle_table_command env .Ipset command
      = (.error "Table commands are only available for nftables backend", []) :=
  rfl

/-- Claim C3 counterexample: for the ipset backend, `add` on the set name
"t.s" forwards the stripped name "s" to the backend, not the CLI argument
"t.s" unchanged. -/
theorem c3_counterexample_dot_name_stripped :
    (handle_add demoEnv .Ipset "t.s" (.v4 1) none "inet").2
      = [.ipsetAdd "s" (.v4 1)] ∧
    BackendCall.ipsetAdd "t.s" (.v4 1) ∉
      (handle_add demoEnv .Ipset "t.s" (.v4 1) none "inet").2 := by
  decide

/-- Claim C3 (amended): every ipset-backend command forwards the set
component of `parse_table_set_name` to the backend — the CLI argument
unchanged unless it contains a dot with non-empty text on both sides of the
first dot, in which case only the portion after the first dot is forwarded. -/
theorem c3_amended_ipset_forwards_parsed_set_component (env : BackendEnv)
    (name a b : String) (entry : IpAddr) (table : Option String) (family ty : String) :
    (handle_add env .Ipset name entry table family).2
      = [.ipsetAdd (parse_table_set_name name).2 entry] ∧
    (handle_del env .Ipset name entry table family).2
      = [.ipsetDel (parse_table_set_name name).2 entry] ∧
    (handle_list env .Ipset name table family).2
      = [.ipsetList (parse_table_set_name name).2] ∧
    (handle_flush env .Ipset name table family).2
      = [.ipsetFlush (parse_table_set_name name).2] ∧
    (handle_set_command env .Ipset (.Del name table family)).2
      = [.ipsetDestroy (parse_table_set_name name).2] ∧
    (handle_rename env .Ipset a b).2
      = [.ipsetRename (parse_table_set_name a).2 (parse_table_set_name b).2] ∧
    (handle_swap env .Ipset a b).2
      = [.ipsetSwap (parse_table_set_name a).2 (parse_table_set_name b).2] ∧
    (∀ st fam, parse_ipset_type ty = .ok st → parse_ipset_family family = .ok fam →
      (handle_set_command env .Ipset (.New name table family ty)).2
        = [.ipsetCreate (parse_table_set_name name).2 ⟨st, fam, none⟩]) := by
  refine ⟨rfl, rfl, rfl, rfl, rfl, rfl, rfl, ?_⟩
  intro st fam hst hfam
  simp only [handle_set_command, hst, hfam]

/-- Claim C3 (amended) witness at concrete inputs. -/
theorem c3_amended_witness :
    parse_ipset_type "hash-ip" = .ok .HashIp ∧
    parse_ipset_family "inet" = .ok .Inet ∧
    (handle_set_command demoEnv .Ipset (.New "t.s" none "inet" "hash-ip")).2
      = [.ipsetCreate "s" ⟨.HashIp, .Inet, none⟩] :=
  ⟨by decide, by decide,
   (c3_amended_ipset_forwards_parsed_set_component demoEnv "t.s" "a" "b" (.v4 1)
      none "inet" "hash-ip").2.2.2.2.2.2.2 .HashIp .Inet (by decide) (by decide)⟩

/-- Claim C4 counterexample: `handle_add` on the nftables backend forwards
the family string "bogus" — which is none of `inet`/`ip`/`ip6` — verbatim to
the backend instead of rejecting it before the call. -/
theorem c4_counterexample_family_not_validated :
    (handle_add demoEnv .Nftables "s" (.v4 1) (some "t") "bogus").2
      = [.nftsetAdd "bogus" "t" "s" (.v4 1)] ∧
    ("bogus" : String) ∉ (["inet", "ip", "ip6"] : List String) := by
  decide

/-- Claim C4 (amended): the CLI handlers perform no validation of the family
string — whatever string is supplied (including ones outside
`inet`/`ip`/`ip6`) is forwarded verbatim to every nftables backend
function. -/
theorem c4_amended_family_forwarded_verbatim (env : BackendEnv) (name : String)
    (entry : IpAddr) (table : Option String) (family ty tn tbl : String)
    (htbl : resolve_table (parse_table_set_name name).1 table = some tbl) :
    (handle_add env .Nftables name entry table family).2
      = [.nftsetAdd family tbl (parse_table_set_name name).2 entry] ∧
    (handle_del env .Nftables name entry table family).2
      = [.nftsetDel family tbl (parse_table_set_name name).2 entry] ∧
    (handle_list env .Nftables name table family).2
      = [.nftsetList family tbl (parse_table_set_name name).2] ∧
    (∀ nt, parse_nftset_type ty family = .ok nt →
      (handle_set_command env .Nftables (.New name table family ty)).2
        = [.nftsetCreateSet family tbl (parse_table_set_name name).2 ⟨nt, none⟩]) ∧
    (handle_set_command env .Nftables (.Del name table family)).2
      = [.nftsetDeleteSet family tbl (parse_table_set_name name).2] ∧
    (handle_table_command env .Nftables (.New tn family)).2
      = [.nftsetCreateTable family tn] ∧
    (handle_table_command env .Nftables (.Del tn family)).2
      = [.nftsetDeleteTable family tn] := by
  refine ⟨?_, ?_, ?_, ?_, ?_, rfl, rfl⟩
  · simp only [handle_add, htbl]
  · simp only [handle_del, htbl]
  · simp only [handle_list, htbl]
  · intro nt hnt
    simp only [handle_set_command, htbl, hnt]
  · simp only [handle_set_command, htbl]

/-- Claim C4 (amended) witness at concrete inputs with family "bogus". -/
theorem c4_amended_witness :
    resolve_table (parse_table_set_name "s").1 (some "t") = some "t" ∧
    (handle_add demoEnv .Nftables "s" (.v4 1) (some "t") "bogus").2
      = [.nftsetAdd "bogus" "t" "s" (.v4 1)] :=
  ⟨by decide,
   (c4_amended_family_forwarded_verbatim demoEnv "s" (.v4 1) (some "t")
      "bogus" "hash-ip" "tn" "t" (by decide)).1⟩

/-- Claim C5: when neither the `<table>.<set>` qualifier nor the `--table`
flag yields a table name, every set-scoped nftables-backend command (add,
del, list, flush, set new, set del) returns the table-required error and
performs no backend call. -/
theorem c5_nftables_missing_table_rejected (env : BackendEnv) (set_name : String)
    (entry : IpAddr) (table : Option String) (family ty : String)
    (h : resolve_table (parse_table_set_name set_name).1 table = none) :
    handle_add env .Nftables set_name entry table family
      = (.error tableRequiredMsg, []) ∧
    handle_del env .Nftables set_name entry table family
      = (.error tableRequiredMsg, []) ∧
    handle_list env .Nftables set_name table family
      = (.error tableRequiredMsg, []) ∧
    handle_flush env .Nftables set_name table family
      = (.error tableRequiredMsg, []) ∧
    handle_set_command env .Nftables (.New set_name table family ty)
      = (.error tableRequiredMsg, []) ∧
    handle_set_command env .Nftables (.Del set_name table family)
      = (.error tableRequiredMsg, []) := by
  refine ⟨?_, ?_, ?_, ?_, ?_, ?_⟩
  · simp only [handle_add, h]
  · simp only [handle_del, h]
  · simp only [handle_list, h]
  · simp only [handle_flush, h]
  · simp only [handle_set_command, h]
  · simp only [handle_set_command, h]

/-- Claim C5 witness at concrete inputs (no dot in the name, no flag). -/
theorem c5_witness :
    resolve_table (parse_table_set_name "myset").1 none = none ∧
    handle_add demoEnv .Nftables "myset" (.v4 1) none "inet"
      = (.error tableRequiredMsg, []) :=
  ⟨by decide,
   (c5_nftables_missing_table_rejected demoEnv "myset" (.v4 1) none "inet"
      "hash-ip" (by decide)).1⟩

/-- Claim C7: `parse_ipset_family` accepts, after lowercasing, exactly the
strings "inet"/"ip"/"ipv4" as `Inet` and exactly "inet6"/"ip6"/"ipv6" as
`Inet6`, errors on every other string, and every accepted family is one of
the two `IpSetFamily` values. -/
theorem c7_parse_ipset_family_exact (s : String) :
    (parse_ipset_family s = .ok .Inet ↔
      rustToLowercase s ∈ (["inet", "ip", "ipv4"] : List String)) ∧
    (parse_ipset_family s = .ok .Inet6 ↔
      rustToLowercase s ∈ (["inet6", "ip6", "ipv6"] : List String)) ∧
    ((∃ m, parse_ipset_family s = .error m) ↔
      rustToLowercase s ∉
        (["inet", "ip", "ipv4", "inet6", "ip6", "ipv6"] : List String)) ∧
    (∀ fam, parse_ipset_family s = .ok fam → fam = .Inet ∨ fam = .Inet6) := by
  refine ⟨?_, ?_, ?_, ?_⟩ <;>
    (unfold parse_ipset_family
     split <;> simp_all)

/-- Claim C7 witness at concrete inputs. -/
theorem c7_witness :
    parse_ipset_family "IP" = .ok .Inet ∧
    parse_ipset_family "Inet6" = .ok .Inet6 ∧
    (∃ m, parse_ipset_family "bogus" = .error m) :=
  ⟨(c7_parse_ipset_family_exact "IP").1.2 (by decide),
   (c7_parse_ipset_family_exact "Inet6").2.1.2 (by decide),
   (c7_parse_ipset_family_exact "bogus").2.2.1.2 (by decide)⟩

/-- Claim C9: `parse_nftset_type` is total — every input pair yields `Ok` —
and a type string outside the known names is silently accepted, yielding
`Ipv6Addr` exactly when the lowercased family is "ip6" or "ipv6" and
`Ipv4Addr` otherwise. -/
theorem c9_parse_nftset_type_total (type_str family : String) :
    (∃ v, parse_nftset_type type_str family = .ok v) ∧
    (rustToLowercase type_str ∈
        (["ipv4", "ipv4_addr", "hash-ip", "hash:ip"] : List String) →
      parse_nftset_type type_str family = .ok .Ipv4Addr) ∧
    (rustToLowercase type_str ∈ (["ipv6", "ipv6_addr"] : List String) →
      parse_nftset_type type_str family = .ok .Ipv6Addr) ∧
    (rustToLowercase type_str ∉
        (["ipv4", "ipv4_addr", "hash-ip", "hash:ip", "ipv6", "ipv6_addr"] :
          List String) →
      parse_nftset_type type_str family =
        .ok (if rustToLowercase family = "ip6" ∨ rustToLowercase family = "ipv6"
          then .Ipv6Addr else .Ipv4Addr)) := by
  refine ⟨?_, ?_, ?_, ?_⟩ <;>
    (unfold parse_nftset_type
     split <;> simp_all <;> split <;> simp_all)

/-- Claim C9 witness at concrete inputs with an unknown type string. -/
theorem c9_witness :
    parse_nftset_type "weird" "bogus" = .ok .Ipv4Addr ∧
    parse_nftset_type "weird" "IPv6" = .ok .Ipv6Addr := by
  have h1 := (c9_parse_nftset_type_total "weird" "bogus").2.2.2 (by decide)
  have h2 := (c9_parse_nftset_type_total "weird" "IPv6").2.2.2 (by decide)
  refine ⟨?_, ?_⟩
  · rw [h1]; decide
  · rw [h2]; decide

/-- A character list without a dot has no split. -/
theorem splitAtFirstDot_of_no_dot (l : List Char) (h : '.' ∉ l) :
    splitAtFirstDot l = none := by
  induction l with
  | nil => rfl
  | cons c cs ih =>
    have hc : ¬c = '.' := fun hh => h (hh ▸ List.mem_cons_self c cs)
    have hcs : '.' ∉ cs := fun hh => h (List.mem_cons_of_mem c hh)
    simp [splitAtFirstDot, hc, ih hcs]

/-- Splitting at the first dot of `t ++ '.' :: s` with no dot in `t` yields
`(t, s)`. -/
theorem splitAtFirstDot_append_dot (t s : List Char) (h : '.' ∉ t) :
    splitAtFirstDot (t ++ '.' :: s) = some (t, s) := by
  induction t with
  | nil => simp [splitAtFirstDot]
  | cons c cs ih =>
    have hc : ¬c = '.' := fun hh => h (hh ▸ List.mem_cons_self c cs)
    have hcs : '.' ∉ cs := fun hh => h (List.mem_cons_of_mem c hh)
    simp [splitAtFirstDot, hc, ih hcs]

/-- A non-empty string has a non-empty character list. -/
theorem data_ne_nil_of_ne_empty (t : String) (h : t ≠ "") : t.data ≠ [] :=
  fun hd => h (String.ext hd)

/-- Rebuilding a string from its character list is the identity. -/
theorem mk_data_eq (t : String) : String.mk t.data = t :=
  String.ext rfl

/-- Claim C8: table resolution precedence — an explicit `--table` value always
wins; with no explicit value the table parsed from the `<table>.<set>`
qualifier (non-empty on both sides of the first dot) is used; and a name
without a dot resolves no table. -/
theorem c8_table_resolution_precedence (name t s : String) :
    (∀ tbl, resolve_table (parse_table_set_name name).1 (some tbl) = some tbl) ∧
    (resolve_table (parse_table_set_name name).1 none = (parse_table_set_name name).1) ∧
    ('.' ∉ t.data → t ≠ "" → s ≠ "" →
      parse_table_set_name (t ++ "." ++ s) = (some t, s)) ∧
    ('.' ∉ name.data →
      parse_table_set_name name = (none, name) ∧
      resolve_table (parse_table_set_name name).1 none = none) := by
  refine ⟨fun tbl => rfl, rfl, ?_, ?_⟩
  · intro hd ht hs
    have hdata : (t ++ "." ++ s).data = t.data ++ '.' :: s.data := by
      simp [String.data_append]
    rw [parse_table_set_name, hdata, splitAtFirstDot_append_dot t.data s.data hd]
    simp [data_ne_nil_of_ne_empty t ht, data_ne_nil_of_ne_empty s hs, mk_data_eq]
  · intro hd
    rw [parse_table_set_name, splitAtFirstDot_of_no_dot name.data hd]
    exact ⟨rfl, rfl⟩

/-- Claim C8 witness at concrete inputs. -/
theorem c8_witness :
    ('.' ∉ ("tb" : String).data ∧ ("tb" : String) ≠ "" ∧ ("st" : String) ≠ "") ∧
    parse_table_set_name ("tb" ++ "." ++ "st") = (some "tb", "st") ∧
    resolve_table (parse_table_set_name "plain").1 (some "flag") = some "flag" :=
  ⟨⟨by decide, by decide, by decide⟩,
   (c8_table_resolution_precedence "plain" "tb" "st").2.2.1
     (by decide) (by decide) (by decide),
   (c8_table_resolution_precedence "plain" "tb" "st").1 "flag"⟩

/-- Claim C6: on every backend, for an address whose width matches the set's
configured family, `add(a)` succeeds and a subsequent `test(a)` returns true,
and `del(a)` succeeds and a subsequent `test(a)` returns false. -/
theorem c6_add_test_del_test (b : Backend) (s : KernelSet) (a : IpAddr)
    (h : addrFamily a = s.family) :
    (∃ s₁, spec_add b s a = .ok s₁ ∧ spec_test b s₁ a = .ok true) ∧
    (∃ s₂, spec_del b s a = .ok s₂ ∧ spec_test b s₂ a = .ok false) := by
  constructor
  · refine ⟨⟨s.family, if a ∈ s.entries then s.entries else a :: s.entries⟩, ?_, ?_⟩
    · simp [spec_add, h]
    · simp only [spec_test]
      rw [if_pos h]
      by_cases hm : a ∈ s.entries <;> simp [hm]
  · refine ⟨⟨s.family, s.entries.filter (fun e => e ≠ a)⟩, ?_, ?_⟩
    · simp [spec_del, h]
    · simp only [spec_test]
      rw [if_pos h]
      simp [List.mem_filter]

/-- Claim C6 witness at a concrete set and matching-width address. -/
theorem c6_witness :
    addrFamily (.v4 5) = (⟨.Inet, []⟩ : KernelSet).family ∧
    ((∃ s₁, spec_add .Ipset ⟨.Inet, []⟩ (.v4 5) = .ok s₁ ∧
        spec_test .Ipset s₁ (.v4 5) = .ok true) ∧
     (∃ s₂, spec_del .Ipset ⟨.Inet, []⟩ (.v4 5) = .ok s₂ ∧
        spec_test .Ipset s₂ (.v4 5) = .ok false)) :=
  ⟨by decide, c6_add_test_del_test .Ipset ⟨.Inet, []⟩ (.v4 5) (by decide)⟩

/-- Shape of the delete loop of the nftables flush emulation: the calls are
deletions of an initial segment of the listed entries, in list order; every
deletion before the last one succeeded; a success means the whole list was
deleted; an error is the one returned by the deletion the loop stopped at. -/
theorem nftFlushLoop_shape (env : BackendEnv) (family table set : String)
    (entries : List IpAddr) :
    ∃ k, k ≤ entries.length ∧
      (nftFlushLoop env family table set entries).2 =
        (entries.take k).map (BackendCall.nftsetDel family table set) ∧
      (∀ i e, i + 1 < k → entries.get? i = some e →
        env.nftset_del family table set e = .ok ()) ∧
      ((nftFlushLoop env family table set entries).1 = .ok () →
        k = entries.length) ∧
      (∀ m, (nftFlushLoop env family table set entries).1 = .error m →
        ∃ j e, j + 1 = k ∧ entries.get? j = some e ∧
          env.nftset_del family table set e = .error m) := by
  induction entries with
  | nil =>
    refine ⟨0, Nat.le_refl 0, rfl, ?_, fun _ => rfl, ?_⟩
    · intro i e hi
      omega
    · intro m hm
      simp [nftFlushLoop] at hm
  | cons e es ih =>
    obtain ⟨k, hk, htr, hok, hres, herr⟩ := ih
    cases hdel : env.nftset_del family table set e with
    | error m =>
      refine ⟨1, by simp, ?_, ?_, ?_, ?_⟩
      · simp [nftFlushLoop, hdel]
      · intro i e' hi
        omega
      · intro hres1
        simp [nftFlushLoop, hdel] at hres1
      · intro m' hm'
        simp only [nftFlushLoop, hdel] at hm'
        exact ⟨0, e, rfl, rfl, by rw [hdel, hm'.symm]⟩
    | ok u =>
      have hdel' : env.nftset_del family table set e = .ok () := by rw [hdel]
      refine ⟨k + 1, by simpa using Nat.succ_le_succ hk, ?_, ?_, ?_, ?_⟩
      · simp [nftFlushLoop, hdel, htr]
      · intro i e' hi hget
        match i with
        | 0 =>
          rw [List.get?_cons_zero] at hget
          rw [← Option.some_inj.mp hget]
          exact hdel'
        | j + 1 =>
          rw [List.get?_cons_succ] at hget
          exact hok j e' (by omega) hget
      · intro hres1
        simp only [nftFlushLoop, hdel] at hres1
        simp [hres hres1]
      · intro m' hm'
        simp only [nftFlushLoop, hdel] at hm'
        obtain ⟨j, e', hj, hget, he⟩ := herr m' hm'
        exact ⟨j + 1, e', by omega, by rw [List.get?_cons_succ]; exact hget, he⟩

/-- Claim C1: the nftables flush emulation first calls `nftset_list` for the
(family, table, set) scope, then calls `nftset_del` once per returned entry
in list order, stopping at the first error, and never calls
`nftset_delete_set` or `nftset_delete_table`. -/
theorem c1_nftables_flush_list_then_delete_each (env : BackendEnv)
    (set_name : String) (table : Option String) (family tbl : String)
    (entries : List IpAddr)
    (htbl : resolve_table (parse_table_set_name set_name).1 table = some tbl)
    (hlist : env.nftset_list family tbl (parse_table_set_name set_name).2
      = .ok entries) :
    ∃ k, k ≤ entries.length ∧
      (handle_flush env .Nftables set_name table family).2 =
        BackendCall.nftsetList family tbl (parse_table_set_name set_name).2 ::
          (entries.take k).map
            (BackendCall.nftsetDel family tbl (parse_table_set_name set_name).2) ∧
      (∀ i e, i + 1 < k → entries.get? i = some e →
        env.nftset_del family tbl (parse_table_set_name set_name).2 e = .ok ()) ∧
      ((handle_flush env .Nftables set_name table family).1 = .ok () →
        k = entries.length) ∧
      (∀ m, (handle_flush env .Nftables set_name table family).1 = .error m →
        ∃ j e, j + 1 = k ∧ entries.get? j = some e ∧
          env.nftset_del family tbl (parse_table_set_name set_name).2 e
            = .error m) ∧
      (∀ fam tb st, BackendCall.nftsetDeleteSet fam tb st ∉
        (handle_flush env .Nftables set_name table family).2) ∧
      (∀ fam tb, BackendCall.nftsetDeleteTable fam tb ∉
        (handle_flush env .Nftables set_name table family).2) := by
  have hred : handle_flush env .Nftables set_name table family =
      ((nftFlushLoop env family tbl (parse_table_set_name set_name).2 entries).1,
       BackendCall.nftsetList family tbl (parse_table_set_name set_name).2 ::
         (nftFlushLoop env family tbl (parse_table_set_name set_name).2 entries).2) := by
    simp [handle_flush, htbl, hlist]
  obtain ⟨k, hk, htr, hok, hres, herr⟩ :=
    nftFlushLoop_shape env family tbl (parse_table_set_name set_name).2 entries
  refine ⟨k, hk, ?_, hok, ?_, ?_, ?_, ?_⟩
  · rw [hred, htr]
  · intro h1
    rw [hred] at h1
    exact hres h1
  · intro m hm
    rw [hred] at hm
    exact herr m hm
  · intro fam tb st hmem
    rw [hred, htr] at hmem
    rcases List.mem_cons.mp hmem with h | h
    · exact absurd h (by simp)
    · obtain ⟨e, _, he⟩ := List.mem_map.mp h
      exact absurd he (by simp)
  · intro fam tb hmem
    rw [hred, htr] at hmem
    rcases List.mem_cons.mp hmem with h | h
    · exact absurd h (by simp)
    · obtain ⟨e, _, he⟩ := List.mem_map.mp h
      exact absurd he (by simp)

/-- Claim C1 witness at a concrete oracle whose list returns two entries and
whose deletions all succeed. -/
theorem c1_witness :
    resolve_table (parse_table_set_name "t.s").1 none = some "t" ∧
    demoEnv.nftset_list "inet" "t" (parse_table_set_name "t.s").2
      = .ok [.v4 1, .v4 2] ∧
    (∃ k, k ≤ ([IpAddr.v4 1, .v4 2] : List IpAddr).length ∧
      (handle_flush demoEnv .Nftables "t.s" none "inet").2 =
        BackendCall.nftsetList "inet" "t" (parse_table_set_name "t.s").2 ::
          (([IpAddr.v4 1, .v4 2] : List IpAddr).take k).map
            (BackendCall.nftsetDel "inet" "t" (parse_table_set_name "t.s").2) ∧
      (∀ i e, i + 1 < k → ([IpAddr.v4 1, .v4 2] : List IpAddr).get? i = some e →
        demoEnv.nftset_del "inet" "t" (parse_table_set_name "t.s").2 e = .ok ()) ∧
      ((handle_flush demoEnv .Nftables "t.s" none "inet").1 = .ok () →
        k = ([IpAddr.v4 1, .v4 2] : List IpAddr).length) ∧
      (∀ m, (handle_flush demoEnv .Nftables "t.s" none "inet").1 = .error m →
        ∃ j e, j + 1 = k ∧ ([IpAddr.v4 1, .v4 2] : List IpAddr).get? j = some e ∧
          demoEnv.nftset_del "inet" "t" (parse_table_set_name "t.s").2 e
            = .error m) ∧
      (∀ fam tb st, BackendCall.nftsetDeleteSet fam tb st ∉
        (handle_flush demoEnv .Nftables "t.s" none "inet").2) ∧
      (∀ fam tb, BackendCall.nftsetDeleteTable fam tb ∉
        (handle_flush demoEnv .Nftables "t.s" none "inet").2)) :=
  ⟨by decide, by decide,
   c1_nftables_flush_list_then_delete_each demoEnv "t.s" none "inet" "t"
     [.v4 1, .v4 2] (by decide) (by decide)⟩

end Ripset
